import Mathlib

/-!
Shallow embedding of the Software Carpentry lesson-template validator
(tools/check.py together with its helper layer) and proofs about it.

Conventions used throughout:

* Python strings are Lean String values, but every operation on them is
  re-implemented over List Char so that all definitions reduce inside the
  kernel (Lean built-in String primitives do not): see strLower, strSplitOn,
  strReplace, strStartsWith, strEndsWith, strContainsCI.
* A logging.error / logging.warning call is modelled as a Diag value
  appended to the diagnostic list a check returns next to its Bool result.
* A Python IndexError is modelled by returning Except.error; the payload
  carries the diagnostics that were already logged when the exception was
  raised.  MarkdownValidator.validate, which wraps run_tests in a
  try/except IndexError handler, catches it.
* The helper revision of validation_helpers.py that check.py imports
  (PandocAstHelper, ast_to_string, get_box_type, ...) is not part of the
  repository snapshot; those few primitives are modelled from the spec
  (sections 3, 4.1 and 4.2) and are marked with a doc comment starting
  with the words Modelled from the spec.
-/

/-- Pandoc-style block node, the shape check.py traverses: node tags mirror
the strings check.py compares against (Header, BlockQuote, Para, BulletList,
DefinitionList).  A Header carries its level, its rendered inline text and
the CSS-class attribute tags of its attribute marker, which the external
parser exposes as metadata. -/
inductive Node where
  | Header (level : Nat) (text : String) (classes : List String) : Node
  | BlockQuote (children : List Node) : Node
  | Para (text : String) : Node
  | Plain (text : String) : Node
  | BulletList : Node
  | DefinitionList : Node

/-- Tag of a node, the string stored under key t in the pandoc json ast. -/
def nodeTag : Node → String
  | .Header _ _ _ => "Header"
  | .BlockQuote _ => "BlockQuote"
  | .Para _ => "Para"
  | .Plain _ => "Plain"
  | .BulletList => "BulletList"
  | .DefinitionList => "DefinitionList"

/-- Diagnostics, one constructor per distinct logging call of check.py.
The payloads keep just enough of the message arguments to tell two
diagnostics of the same kind apart. -/
inductive Diag where
  | fixmeLine (lineNo : Nat) : Diag
  | missingYamlHeader : Diag
  | unrecognizedLabel (key : String) : Diag
  | badYamlValue (key : String) : Diag
  | extraKey (key : String) : Diag
  | missingKey (key : String) : Diag
  | keyMismatch (occurred expected : String) : Diag
  | headingNotLevel2 (title : String) : Diag
  | docMissingHeading (title : String) : Diag
  | docExtraHeading (title : String) : Diag
  | orderExtraHeading (title : String) : Diag
  | orderMissingHeading (title : String) : Diag
  | orderMismatch (occurred expected : String) : Diag
  | emptyBox (title : String) : Diag
  | objectivesNotList (title : String) : Diag
  | objectivesTooMany (title : String) : Diag
  | prereqBadTitle (title : String) : Diag
  | prereqNotPara (title : String) : Diag
  | prereqTooMany (title : String) : Diag
  | boxTitleLevel (title : String) : Diag
  | unknownBoxType (title : String) : Diag
  | missingBox (boxType : String) : Diag
  | boxCountRange (boxType : String) : Diag
  | missingMarkdownFile (address destPath : String) : Diag
  | missingAnchor (address anchor destPath : String) : Diag
  | missingAssetFile (destPath : String) : Diag
  | extraAfterGlossary : Diag
  | missingGlossary : Diag
  | introNotParagraph : Diag
  | introNotBlockquote : Diag
  | introQuoteNotHeader : Diag
  | introQuoteNotParagraph : Diag
  | criticalSections : Diag
deriving DecidableEq, Repr

/-- Lowercase of a string, code point by code point (Python str.lower on the
ascii range used by the validator). -/
def strLower (s : String) : String := String.mk (s.data.map Char.toLower)

/-- Does s start with pat (Python str.startswith / an anchored regex)? -/
def strStartsWith (s pat : String) : Bool := pat.data.isPrefixOf s.data

/-- Does s end with pat (a regex anchored with a dollar)? -/
def strEndsWith (s pat : String) : Bool := pat.data.isSuffixOf s.data

/-- Substring scan over code points. -/
def listContainsSub (pat : List Char) : List Char → Bool
  | [] => pat.isEmpty
  | c :: cs => pat.isPrefixOf (c :: cs) || listContainsSub pat cs

/-- Case-insensitive substring test, modelling re.search with re.IGNORECASE
as used by validate_no_fixme. -/
def strContainsCI (s pat : String) : Bool :=
  listContainsSub (strLower pat).data (strLower s).data

/-- Python str.split with a one-character separator: splits on every
occurrence, keeping empty pieces, and yields one piece for the empty
string. -/
def strSplitOnAux (c : Char) : List Char → List Char → List String
  | [], acc => [String.mk acc.reverse]
  | x :: xs, acc =>
    if x = c then String.mk acc.reverse :: strSplitOnAux c xs []
    else strSplitOnAux c xs (x :: acc)

/-- Python address.split on a separator character. -/
def strSplitOn (s : String) (c : Char) : List String := strSplitOnAux c s.data []

/-- Python str.replace: replace every (leftmost, non-overlapping) occurrence
of pat by rep.  The fuel argument, always instantiated with the length of
the scanned list, only makes the recursion structural. -/
def strReplaceAux (pat rep : List Char) : Nat → List Char → List Char
  | _, [] => []
  | 0, l => l
  | fuel + 1, c :: cs =>
    if pat ≠ [] ∧ pat.isPrefixOf (c :: cs) then
      rep ++ strReplaceAux pat rep fuel ((c :: cs).drop pat.length)
    else
      c :: strReplaceAux pat rep fuel cs

/-- Python dest_path.replace(pat, rep). -/
def strReplace (s pat rep : String) : String :=
  String.mk (strReplaceAux pat.data rep.data s.data.length s.data)

/-- Lexicographic comparison of code-point sequences. -/
def natListLe : List Nat → List Nat → Bool
  | [], _ => true
  | _ :: _, [] => false
  | a :: as, b :: bs => if a < b then true else if a = b then natListLe as bs else false

/-- Code points of a string, the key Python compares strings by. -/
def strKey (s : String) : List Nat := s.data.map Char.toNat

/-- Python string order (lexicographic on code points), as a relation. -/
def strLeP (s t : String) : Prop := natListLe (strKey s) (strKey t) = true

instance : DecidableRel strLeP := fun s t =>
  inferInstanceAs (Decidable (natListLe (strKey s) (strKey t) = true))

/-- Python sorted() on a list of strings: ascending code-point
lexicographic order. -/
def sortKeys (l : List String) : List String := l.insertionSort strLeP

/-- The filesystem and the already-parsed neighbour documents, the two
external facts the link check consults: os.path.isfile, and the anchor set
of MarkdownValidator(dest_path).ast for a markdown file on disk. -/
structure FileSystem where
  isfile : String → Bool
  anchors : String → List String

/-- One entry of EXPECTED_BOXES: title constraint, min count, max count
(none stands for float infinity). -/
structure BoxRule where
  title : Option String
  minCount : Nat
  maxCount : Option Nat
deriving DecidableEq, Repr

/-- A template rule set: the class attributes a MarkdownValidator subclass
carries (EXPECTED_YAML_HEADER, EXPECTED_HEADINGS, WARN_ON_EXTRA_HEADINGS,
EXPECTED_BOXES). -/
structure TemplateSpec where
  yamlHeader : List (String × (String → Bool))
  headings : List String
  warnExtraHeadings : Bool
  boxes : List (String × BoxRule)

/-- is_str from validation_helpers.py: a non-blank string. -/
def is_str (s : String) : Bool := s.length > 0

/-- is_numeric from validation_helpers.py wraps float(text); modelled for
the plain decimal forms the templates use (optional sign, digits, optional
fraction); no theorem in this file evaluates it. -/
def is_numeric (s : String) : Bool :=
  let t := if strStartsWith s "-" ∨ strStartsWith s "+" then s.data.drop 1 else s.data
  match strSplitOnAux '.' t [] with
  | [intPart] => intPart.length > 0 ∧ intPart.data.all Char.isDigit
  | [intPart, fracPart] =>
    (intPart.length > 0 ∨ fracPart.length > 0)
      ∧ intPart.data.all Char.isDigit ∧ fracPart.data.all Char.isDigit
  | _ => false

/-- Modelled from the spec: renderToPlainText of the predicate library
(section 4.2), the ast_to_string helper absent from the snapshot of
validation_helpers.py.  On the node shapes this file models, the rendered
plain text of a node is the inline text it carries. -/
def ast_to_string : Node → String
  | .Header _ t _ => t
  | .Para t => t
  | .Plain t => t
  | _ => ""

/-- Modelled from the spec: the headings() adapter query (section 4.1):
the top-level Header nodes of the body as (level, title) pairs, headings
nested inside boxes excluded. -/
def get_headings (body : List Node) : List (Nat × String)
  := body.filterMap fun n =>
    match n with
    | .Header l t _ => some (l, t)
    | _ => none

/-- Modelled from the spec: the boxes() adapter query (section 4.1):
the top-level BlockQuote nodes whose first child is a Header. -/
def get_boxes (body : List Node) : List Node :=
  body.filter fun n =>
    match n with
    | .BlockQuote (.Header _ _ _ :: _) => true
    | _ => false

/-- Children of a blockquote node (the list under its key c). -/
def boxChildren : Node → List Node
  | .BlockQuote cs => cs
  | _ => []

/-- Modelled from the spec: get_box_level of the helper layer; a Box's
level is the level of the header that is its first child (section 3). -/
def get_box_level : Node → Nat
  | .BlockQuote (.Header l _ _ :: _) => l
  | _ => 0

/-- Modelled from the spec: get_box_title; the rendered text of the
header, its attribute marker stripped (section 3). -/
def get_box_title : Node → String
  | .BlockQuote (.Header _ t _ :: _) => t
  | _ => ""

/-- Modelled from the spec: get_box_type; the CSS-class tag extracted
from the attribute marker, or null when absent (section 3). -/
def get_box_type : Node → Option String
  | .BlockQuote (.Header _ _ cs :: _) => cs.head?
  | _ => none

/-- Folding a per-item check the way the three loops of the form
res = res and check(item) do in Python: once res is False the remaining
items are never evaluated, so their diagnostics are never emitted. -/
def andAcc (f : α → Bool × List Diag) : List α → Bool → List Diag → Bool × List Diag
  | [], res, ds => (res, ds)
  | x :: xs, res, ds =>
    if res then
      let r := f x
      andAcc f xs r.1 (ds ++ r.2)
    else
      andAcc f xs res ds

/-- MarkdownValidator._validate_no_fixme: scan every raw line for the
work-in-progress marker, case-insensitively; every hit logs an error, the
scan never stops early. -/
def validate_no_fixme (rawLines : List String) : Bool × List Diag :=
  (rawLines.enum.foldl (fun acc li =>
    if strContainsCI li.2 "FIXME" then (false, acc.2 ++ [Diag.fixmeLine (li.1 + 1)])
    else acc) (true, []))

/-- MarkdownValidator._validate_one_element_from_header: a key absent from
EXPECTED_YAML_HEADER logs an unrecognized-label warning; otherwise the
value must satisfy the validator registered for the key. -/
def validate_one_element_from_header (spec : TemplateSpec)
    (header : List (String × String)) (key : String) : Bool × List Diag :=
  match spec.yamlHeader.lookup key with
  | none => (false, [Diag.unrecognizedLabel key])
  | some f =>
    if f ((header.lookup key).getD "") then (true, [])
    else (false, [Diag.badYamlValue key])

/-- The itertools.zip_longest loop of _validate_header over the two sorted
key lists: a None on the expected side is an extra key, a None on the
occurred side a missing key, a differing pair a mismatch; every defect
logs and clears the result, and the loop always runs to the end. -/
def headerZip : List String → List String → Bool × List Diag
  | [], [] => (true, [])
  | [], o :: os => (false, (o :: os).map Diag.extraKey)
  | e :: es, [] => (false, (e :: es).map Diag.missingKey)
  | e :: es, o :: os =>
    let r := headerZip es os
    if e = o then r else (false, Diag.keyMismatch o e :: r.2)

/-- MarkdownValidator._validate_header: an empty front matter is an error;
otherwise every present key runs through the per-key check (with the
res-and short-circuit of the source), and then the sorted expected key
list is compared against the sorted present key list pairwise. -/
def validate_header (spec : TemplateSpec)
    (header : List (String × String)) : Bool × List Diag :=
  if header.length = 0 then (false, [Diag.missingYamlHeader])
  else
    let loop := andAcc (fun kv => validate_one_element_from_header spec header kv.1)
      header true []
    let z := headerZip (sortKeys (spec.yamlHeader.map Prod.fst))
      (sortKeys (header.map Prod.fst))
    (loop.1 && z.1, loop.2 ++ z.2)

/-- Statement-side abbreviation for claim C4: the key is registered in
EXPECTED_YAML_HEADER and its value satisfies the registered validator. -/
def headerValueOk (spec : TemplateSpec) (kv : String × String) : Bool :=
  match spec.yamlHeader.lookup kv.1 with
  | some f => f kv.2
  | none => false

/-- MarkdownValidator._validate_one_heading: a top-level heading must be
exactly level 2. -/
def validate_one_heading (h : Nat × String) : Bool × List Diag :=
  if h.1 ≠ 2 then (false, [Diag.headingNotLevel2 h.2]) else (true, [])

/-- The zip_longest loop of _validate_headings_order over the expected
titles and the discovered level-2 titles. -/
def headingsZip : List String → List String → Bool × List Diag
  | [], [] => (true, [])
  | [], o :: os => (false, (o :: os).map Diag.orderExtraHeading)
  | e :: es, [] => (false, (e :: es).map Diag.orderMissingHeading)
  | e :: es, o :: os =>
    let r := headingsZip es os
    if e = o then r else (false, Diag.orderMismatch o e :: r.2)

/-- MarkdownValidator._validate_headings_order: compare EXPECTED_HEADINGS
with the titles of the discovered level-2 headings position by position. -/
def validate_headings_order (expected : List String)
    (headings : List (Nat × String)) : Bool × List Diag :=
  headingsZip expected ((headings.filter (fun h => h.1 == 2)).map Prod.snd)

/-- MarkdownValidator._validate_headings: level-check every heading (with
the res-and short-circuit of the source), report every expected heading
missing from the document, and, when WARN_ON_EXTRA_HEADINGS holds, report
every unexpected heading and then (only if nothing failed so far, again a
res-and) compare the order. -/
def validate_headings (expected : List String) (warn : Bool)
    (headings : List (Nat × String)) : Bool × List Diag :=
  let l := andAcc validate_one_heading headings true []
  let titles := headings.map Prod.snd
  let missing := expected.filter (fun e => !(titles.contains e))
  let l2 : Bool × List Diag :=
    (l.1 && missing.isEmpty, l.2 ++ missing.map Diag.docMissingHeading)
  if warn then
    let extra := titles.filter (fun t => !(expected.contains t))
    let l3 : Bool × List Diag :=
      (l2.1 && extra.isEmpty, l2.2 ++ extra.map Diag.docExtraHeading)
    if l3.1 then
      let r := validate_headings_order expected headings
      (r.1, l3.2 ++ r.2)
    else l3
  else l2

/-- Rendered text of the first child of a box, the value the box shape
checks interpolate into their messages and the prereq check compares
against Prerequisites. -/
def boxHeadString (box : Node) : String :=
  ast_to_string ((boxChildren box).getD 0 Node.BulletList)

/-- MarkdownValidator._is_box_nonempty: a box whose blockquote holds just
the heading is empty.  The length-one test reads c[0], always present on
the boxes get_boxes yields. -/
def is_box_nonempty (box : Node) : Bool × List Diag :=
  if (boxChildren box).length = 1 then (false, [Diag.emptyBox (boxHeadString box)])
  else (true, [])

/-- MarkdownValidator._is_callout_box (also used for challenge boxes):
only the non-emptiness shape rule; never raises. -/
def is_callout_box (box : Node) : Except (List Diag) (Bool × List Diag) :=
  .ok (is_box_nonempty box)

/-- MarkdownValidator._is_objectives_box: non-emptiness, then an unguarded
read of c[1] (an IndexError when the blockquote has a single child,
modelled as Except.error carrying the diagnostics logged so far), the
second child must be a BulletList, and no third child may exist. -/
def is_objectives_box (box : Node) : Except (List Diag) (Bool × List Diag) :=
  let r1 := is_box_nonempty box
  match (boxChildren box).get? 1 with
  | none => .error r1.2
  | some second =>
    let r2 : Bool × List Diag :=
      if nodeTag second ≠ "BulletList" then (false, [Diag.objectivesNotList (boxHeadString box)])
      else (true, [])
    let r3 : Bool × List Diag :=
      if (boxChildren box).length > 2 then (false, [Diag.objectivesTooMany (boxHeadString box)])
      else (true, [])
    .ok (r1.1 && r2.1 && r3.1, r1.2 ++ r2.2 ++ r3.2)

/-- MarkdownValidator._is_prereq_box: the title must read Prerequisites,
then non-emptiness behind the res-and short-circuit of the source, then an
unguarded read of c[1] (IndexError on a single-child blockquote), the
second child must be a paragraph, and no third child may exist. -/
def is_prereq_box (box : Node) : Except (List Diag) (Bool × List Diag) :=
  let rt : Bool × List Diag :=
    if boxHeadString box ≠ "Prerequisites" then (false, [Diag.prereqBadTitle (boxHeadString box)])
    else (true, [])
  let rn : Bool × List Diag := if rt.1 then is_box_nonempty box else (rt.1, [])
  match (boxChildren box).get? 1 with
  | none => .error (rt.2 ++ rn.2)
  | some second =>
    let r2 : Bool × List Diag :=
      if nodeTag second ≠ "Para" then (false, [Diag.prereqNotPara (boxHeadString box)])
      else (true, [])
    let r3 : Bool × List Diag :=
      if (boxChildren box).length > 2 then (false, [Diag.prereqTooMany (boxHeadString box)])
      else (true, [])
    .ok (rt.1 && rn.1 && r2.1 && r3.1, rt.2 ++ rn.2 ++ r2.2 ++ r3.2)

/-- The boxes_type_and_functions table of _validate_boxes; note the source
routes challenge boxes through _is_callout_box as well. -/
def boxTypeFunctions : List (String × (Node → Except (List Diag) (Bool × List Diag))) :=
  [("callout", is_callout_box), ("challenge", is_callout_box),
   ("objectives", is_objectives_box), ("prereq", is_prereq_box)]

/-- The at-most-one entry of boxes_type_and_functions matching a box type
tag (the four tags are distinct, so iterating the table equals a lookup). -/
def lookupBoxFn (t : Option String) :
    Option (Node → Except (List Diag) (Bool × List Diag)) :=
  match t with
  | some s => (boxTypeFunctions.find? (fun p => p.1 = s)).map Prod.snd
  | none => none

/-- Membership in the boxes_counters dict. -/
def countersHas (cs : List (Option String × Nat)) (t : Option String) : Bool :=
  cs.any (fun kv => kv.1 = t)

/-- The boxes_counters[box_type] = 0 initialisation for a first-seen type. -/
def countersInit (cs : List (Option String × Nat)) (t : Option String) :
    List (Option String × Nat) :=
  if countersHas cs t then cs else cs ++ [(t, 0)]

/-- The boxes_counters[box_type] += 1 update. -/
def countersInc (cs : List (Option String × Nat)) (t : Option String) :
    List (Option String × Nat) :=
  cs.map (fun kv => if kv.1 = t then (kv.1, kv.2 + 1) else kv)

/-- Reading boxes_counters[t], none when the key was never created. -/
def countersGet (cs : List (Option String × Nat)) (t : Option String) : Option Nat :=
  (cs.find? (fun kv => kv.1 = t)).map Prod.snd

/-- The per-box loop of _validate_boxes: level-check the box title, create
the counter for its type, run the shape check of its type (a box counts
toward the tally only when that check passed; an unknown type is an
error), and propagate an IndexError raised by a shape check. -/
def boxesLoop :
    List Node → Bool → List Diag → List (Option String × Nat) →
    Except (List Diag) (Bool × List Diag × List (Option String × Nat))
  | [], res, ds, cs => .ok (res, ds, cs)
  | b :: rest, res, ds, cs =>
    let lv : Bool × List Diag :=
      if get_box_level b ≠ 2 then (false, [Diag.boxTitleLevel (get_box_title b)])
      else (true, [])
    let res1 := res && lv.1
    let ds1 := ds ++ lv.2
    let t := get_box_type b
    let cs1 := countersInit cs t
    match lookupBoxFn t with
    | some f =>
      match f b with
      | .error de => .error (ds1 ++ de)
      | .ok r =>
        if r.1 then boxesLoop rest res1 (ds1 ++ r.2) (countersInc cs1 t)
        else boxesLoop rest false (ds1 ++ r.2) cs1
    | none => boxesLoop rest false (ds1 ++ [Diag.unknownBoxType (get_box_title b)]) cs1

/-- The per-template loop of _validate_boxes over EXPECTED_BOXES: a type
with no counter entry errs only when its min is positive; a counted tally
below min or above max errs; an absent max (float infinity) never bounds
from above. -/
def expectedBoxesLoop :
    List (String × BoxRule) → List (Option String × Nat) → Bool → List Diag →
    Bool × List Diag
  | [], _, res, ds => (res, ds)
  | (t, rule) :: rest, cs, res, ds =>
    match countersGet cs (some t) with
    | none =>
      if rule.minCount > 0 then expectedBoxesLoop rest cs false (ds ++ [Diag.missingBox t])
      else expectedBoxesLoop rest cs res ds
    | some c =>
      if rule.minCount > c
          || (match rule.maxCount with | some m => decide (m < c) | none => false) then
        expectedBoxesLoop rest cs false (ds ++ [Diag.boxCountRange t])
      else expectedBoxesLoop rest cs res ds

/-- MarkdownValidator._validate_boxes over the boxes of a document. -/
def validate_boxes (spec : TemplateSpec) (boxes : List Node) :
    Except (List Diag) (Bool × List Diag) :=
  match boxesLoop boxes true [] [] with
  | .error ds => .error ds
  | .ok (res, ds, cs) => .ok (expectedBoxesLoop spec.boxes cs res ds)

/-- The node test of the search state of _validate_glossary: a Header node
(of any level) whose rendered text reads Glossary. -/
def isGlossaryHeader (n : Node) : Bool :=
  nodeTag n == "Header" && ast_to_string n == "Glossary"

/-- The body scan of ReferencePageValidator._validate_glossary with its
three states: still searching for the Glossary header, header found and
awaiting the glossary node, and glossary node recorded (any further node
logs an extra-element error). -/
def glossLoop :
    List Node → Bool → Bool → Option Node → List Diag →
    Bool × List Diag × Option Node
  | [], res, _, gl, ds => (res, ds, gl)
  | n :: rest, res, found, gl, ds =>
    match gl with
    | some g => glossLoop rest false found (some g) (ds ++ [Diag.extraAfterGlossary])
    | none =>
      if found then glossLoop rest res found (some n) ds
      else if isGlossaryHeader n then glossLoop rest res true none ds
      else glossLoop rest res found none ds

/-- ReferencePageValidator._validate_glossary: scan the body, then report
a missing glossary entry when no node was recorded after the Glossary
header.  The type of the recorded node is never inspected. -/
def validate_glossary (body : List Node) : Bool × List Diag :=
  let r := glossLoop body true false none []
  match r.2.2 with
  | none => (false, r.2.1 ++ [Diag.missingGlossary])
  | some _ => (r.1, r.2.1)

/-- Modelled from the spec: the is_paragraph predicate of the predicate
library (section 4.2), a pure typed question about the node at a position;
the helper revision check.py imports is absent from the snapshot.  A
position past the end holds no paragraph. -/
def vh_is_paragraph (nodes : List Node) (i : Nat) : Bool :=
  match nodes.get? i with
  | some (.Para _) => true
  | _ => false

/-- Modelled from the spec: the is-blockquote predicate of the predicate
library (section 4.2). -/
def vh_is_blockquote (nodes : List Node) (i : Nat) : Bool :=
  match nodes.get? i with
  | some (.BlockQuote _) => true
  | _ => false

/-- Modelled from the spec: the is-heading predicate of the predicate
library (section 4.2). -/
def vh_is_heading (nodes : List Node) (i : Nat) : Bool :=
  match nodes.get? i with
  | some (.Header _ _ _) => true
  | _ => false

/-- Modelled from the spec: get_node_content, the children of the node at
a position (used on the blockquote in the intro-section check). -/
def vh_get_node_content (nodes : List Node) (i : Nat) : List Node :=
  match nodes.get? i with
  | some (.BlockQuote cs) => cs
  | _ => []

/-- IndexPageValidator._validate_intro_section, verbatim from the source
including its boolean polarity: each branch returns False when its
predicate holds, True only when every predicate was false. -/
def validate_intro_section (body : List Node) : Bool × List Diag :=
  if vh_is_paragraph body 0 then (false, [Diag.introNotParagraph])
  else if vh_is_blockquote body 1 then (false, [Diag.introNotBlockquote])
  else
    let bq := vh_get_node_content body 1
    if vh_is_heading bq 0 then (false, [Diag.introQuoteNotHeader])
    else if vh_is_paragraph bq 1 then (false, [Diag.introQuoteNotParagraph])
    else (true, [])

/-- The absolute-url guard of _validate_one_link: the case-insensitive
anchored regex for http, https or ftp schemes. -/
def isAbsoluteUrl (address : String) : Bool :=
  strStartsWith (strLower address) "http://"
    || strStartsWith (strLower address) "https://"
    || strStartsWith (strLower address) "ftp://"

/-- The mailto guard of _validate_one_link (case sensitive in the source). -/
def isMailto (address : String) : Bool := strStartsWith address "mailto:"

/-- The html-extension test of _validate_one_link: the case-insensitive
search for a dot-htm-or-html suffix. -/
def endsWithHtml (p : String) : Bool :=
  strEndsWith (strLower p) ".htm" || strEndsWith (strLower p) ".html"

/-- os.path.join for the two-argument uses of the link check. -/
def joinPath (dir file : String) : String :=
  if strStartsWith file "/" then file
  else if dir = "" then file
  else dir ++ "/" ++ file

/-- MarkdownValidator._validate_one_link: skip absolute urls; split the
address at the hash marks; an empty path means the current file; a path
with an htm or html suffix is rewritten by replacing every literal .html
substring with .md and the markdown file must exist (and hold the anchor
when one was given); any other path must exist on disk as-is. -/
def validate_one_link (fs : FileSystem) (lessonDir fname address : String) :
    Bool × List Diag :=
  if !(isAbsoluteUrl address) && !(isMailto address) then
    let parts := strSplitOn address '#'
    let anchor : Option String := match parts with | _ :: a :: _ => some a | _ => none
    let dest0 : String := match parts with | d :: _ => d | [] => ""
    let dest := if dest0 = "" then fname else dest0
    let destPath := joinPath lessonDir dest
    if endsWithHtml destPath then
      let destPath2 := strReplace destPath ".html" ".md"
      if !(fs.isfile destPath2) then (false, [Diag.missingMarkdownFile address destPath2])
      else
        match anchor with
        | some a =>
          if a ≠ "" then
            if !((fs.anchors destPath2).contains a) then
              (false, [Diag.missingAnchor address a destPath2])
            else (true, [])
          else (true, [])
        | none => (true, [])
    else
      if !(fs.isfile destPath) then (false, [Diag.missingAssetFile destPath])
      else (true, [])
  else (true, [])

/-- MarkdownValidator._validate_links over the links the adapter gathered
(display text, address): the loop carries the res-and short-circuit of
the source. -/
def validate_links (fs : FileSystem) (lessonDir fname : String)
    (links : List (String × String)) : Bool × List Diag :=
  andAcc (fun l => validate_one_link fs lessonDir fname l.2) links true []

/-- MarkdownValidator._run_tests: the five sub-checks evaluated in order
(the Python list literal evaluates eagerly), their booleans combined by
all() afterwards; an IndexError escaping the box check aborts before the
link check ever runs.  The links argument stands for the links() adapter
walk (modelled from the spec, section 4.1), gathered recursively so links
inside boxes are included. -/
def run_tests (fs : FileSystem) (spec : TemplateSpec) (lessonDir fname : String)
    (rawLines : List String) (header : List (String × String)) (body : List Node)
    (links : List (String × String)) : Except (List Diag) (Bool × List Diag) :=
  let t1 := validate_no_fixme rawLines
  let t2 := validate_header spec header
  let t3 := validate_headings spec.headings spec.warnExtraHeadings (get_headings body)
  match validate_boxes spec (get_boxes body) with
  | .error ds => .error (t1.2 ++ t2.2 ++ t3.2 ++ ds)
  | .ok t4 =>
    let t5 := validate_links fs lessonDir fname links
    .ok (t1.1 && t2.1 && t3.1 && t4.1 && t5.1, t1.2 ++ t2.2 ++ t3.2 ++ t4.2 ++ t5.2)

/-- MarkdownValidator.validate: run the tests inside the try/except
IndexError handler; a raised IndexError logs the missing-critical-sections
error and yields False, and every diagnostic of the skipped checks is
lost. -/
def validate (fs : FileSystem) (spec : TemplateSpec) (lessonDir fname : String)
    (rawLines : List String) (header : List (String × String)) (body : List Node)
    (links : List (String × String)) : Bool × List Diag :=
  match run_tests fs spec lessonDir fname rawLines header body links with
  | .ok r => r
  | .error ds => (false, ds ++ [Diag.criticalSections])

/-- IndexPageValidator class attributes. -/
def IndexPageTemplate : TemplateSpec :=
  { yamlHeader := [("layout", is_str), ("title", is_str)]
    headings := ["Topics", "Other Resources"]
    warnExtraHeadings := true
    boxes := [("prereq", ⟨some "Prerequisites", 1, some 1⟩)] }

/-- TopicPageValidator class attributes: no expected headings, and the
inherited WARN_ON_EXTRA_HEADINGS stays true, so every heading is extra. -/
def TopicPageTemplate : TemplateSpec :=
  { yamlHeader := [("layout", is_str), ("title", is_str), ("subtitle", is_str),
      ("minutes", is_numeric)]
    headings := []
    warnExtraHeadings := true
    boxes := [("objectives", ⟨some "Learning Objectives", 1, some 1⟩),
      ("callout", ⟨none, 0, none⟩), ("challenge", ⟨none, 0, none⟩)] }

/-- MotivationPageValidator class attributes. -/
def MotivationPageTemplate : TemplateSpec :=
  { yamlHeader := [("layout", is_str), ("title", is_str), ("subtitle", is_str)]
    headings := []
    warnExtraHeadings := false
    boxes := [] }

/-- ReferencePageValidator class attributes. -/
def ReferencePageTemplate : TemplateSpec :=
  { yamlHeader := [("layout", is_str), ("title", is_str), ("subtitle", is_str)]
    headings := ["Glossary"]
    warnExtraHeadings := false
    boxes := [] }

/-- InstructorPageValidator class attributes. -/
def InstructorPageTemplate : TemplateSpec :=
  { yamlHeader := [("layout", is_str), ("title", is_str), ("subtitle", is_str)]
    headings := ["Legend", "Overall"]
    warnExtraHeadings := false
    boxes := [] }

/-- DiscussionPageValidator class attributes. -/
def DiscussionPageTemplate : TemplateSpec :=
  { yamlHeader := [("layout", is_str), ("title", is_str), ("subtitle", is_str)]
    headings := []
    warnExtraHeadings := false
    boxes := [] }

/-- Statement-side companion for the amended claim C2, written from the
amended wording: the glossary check passes exactly when the first Glossary
header of the body is followed by exactly one node of any type. -/
def glossPassSpec : List Node → Bool
  | [] => false
  | n :: rest => if isGlossaryHeader n then rest.length == 1 else glossPassSpec rest

/-- Did the type-specific shape check of a box succeed (the condition
under which _validate_boxes increments the tally of its type)? -/
def shape_passed (b : Node) : Bool :=
  match lookupBoxFn (get_box_type b) with
  | some f => match f b with | .ok r => r.1 | .error _ => false
  | none => false

/-- The tally of a box type: the boxes of that type whose shape check
passed, the count _validate_boxes compares against min and max. -/
def tallyBoxes (t : String) (boxes : List Node) : Nat :=
  (boxes.filter (fun b => decide (get_box_type b = some t) && shape_passed b)).length

/-- A box that satisfies every per-box rule of _validate_boxes: level-2
title, a known type tag, and a shape check that passes without
diagnostics and without raising. -/
def wellShapedBox (b : Node) : Bool :=
  decide (get_box_level b = 2)
    && (match lookupBoxFn (get_box_type b) with
        | some f => (match f b with | .ok (true, []) => true | _ => false)
        | none => false)

theorem andAcc_all_true {α : Type} (f : α → Bool × List Diag) :
    ∀ (xs : List α) (ds : List Diag), (∀ x ∈ xs, f x = (true, [])) →
      andAcc f xs true ds = (true, ds) := by
  intro xs
  induction xs with
  | nil => intro ds _; rfl
  | cons x xs ih =>
    intro ds h
    have hx := h x (by simp)
    have hstep : andAcc f (x :: xs) true ds = andAcc f xs (f x).1 (ds ++ (f x).2) := rfl
    rw [hstep, hx]
    simpa using ih ds (fun y hy => h y (by simp [hy]))

theorem headingsZip_fst_iff : ∀ (es os : List String), (headingsZip es os).1 = true ↔ es = os := by
  intro es
  induction es with
  | nil =>
    intro os
    cases os with
    | nil => simp [headingsZip]
    | cons o os2 => simp [headingsZip]
  | cons e es2 ih =>
    intro os
    cases os with
    | nil => simp [headingsZip]
    | cons o os2 =>
      by_cases h : e = o
      · subst h
        simpa [headingsZip] using ih os2
      · simp [headingsZip, h]

theorem headerZip_fst_iff : ∀ (es os : List String), (headerZip es os).1 = true ↔ es = os := by
  intro es
  induction es with
  | nil =>
    intro os
    cases os with
    | nil => simp [headerZip]
    | cons o os2 => simp [headerZip]
  | cons e es2 ih =>
    intro os
    cases os with
    | nil => simp [headerZip]
    | cons o os2 =>
      by_cases h : e = o
      · subst h
        simpa [headerZip] using ih os2
      · simp [headerZip, h]

theorem headerZip_snd_ne : ∀ (es os : List String), es ≠ os → (headerZip es os).2 ≠ [] := by
  intro es
  induction es with
  | nil =>
    intro os hne
    cases os with
    | nil => exact absurd rfl hne
    | cons o os2 => simp [headerZip]
  | cons e es2 ih =>
    intro os hne
    cases os with
    | nil => simp [headerZip]
    | cons o os2 =>
      by_cases h : e = o
      · subst h
        have hne2 : es2 ≠ os2 := fun hh => hne (by rw [hh])
        simpa [headerZip] using ih os2 hne2
      · simp [headerZip, h]

/-- Claim C1: the spec states that the heading loop, the front-matter key
loop and the link loop never short-circuit, so one run reports the full
defect list.  The source uses res-and accumulation (res = res and
check(item)) in all three loops, and Python short-circuits the and: after
the first failing item the remaining items are never checked.  This
theorem evaluates the embedded loops at documents with two defective
items of each kind: only the first item of each kind produces its
diagnostic; the diagnostic of the second defective heading, of the second
unrecognized key and of the second broken link is absent. -/
theorem C1_loops_short_circuit :
    validate_headings [] true [(3, "A"), (3, "B")]
      = (false, [Diag.headingNotLevel2 "A", Diag.docExtraHeading "A", Diag.docExtraHeading "B"])
    ∧ Diag.headingNotLevel2 "B" ∉ (validate_headings [] true [(3, "A"), (3, "B")]).2
    ∧ validate_header ⟨[("layout", is_str)], [], true, []⟩ [("bad1", "v"), ("bad2", "v")]
      = (false, [Diag.unrecognizedLabel "bad1", Diag.keyMismatch "bad1" "layout",
          Diag.extraKey "bad2"])
    ∧ Diag.unrecognizedLabel "bad2"
      ∉ (validate_header ⟨[("layout", is_str)], [], true, []⟩ [("bad1", "v"), ("bad2", "v")]).2
    ∧ validate_links ⟨fun _ => false, fun _ => []⟩ "" "doc.md"
        [("t1", "missing1.html"), ("t2", "missing2.html")]
      = (false, [Diag.missingMarkdownFile "missing1.html" "missing1.md"])
    ∧ Diag.missingMarkdownFile "missing2.html" "missing2.md"
      ∉ (validate_links ⟨fun _ => false, fun _ => []⟩ "" "doc.md"
          [("t1", "missing1.html"), ("t2", "missing2.html")]).2 := by
  refine ⟨by decide, by decide, by decide, by decide, by decide, by decide⟩

/-- Claim C2 counterexample: a reference body whose Glossary heading is
followed by a single paragraph (not a definition list).  The claim states
the glossary check must fail with a missing-glossary-entry diagnostic;
the code records whatever node follows the heading without inspecting its
type, so the check passes with no diagnostics at all. -/
theorem C2_counterexample :
    validate_glossary [Node.Header 2 "Glossary" [], Node.Para "A paragraph, not a list"]
      = (true, []) := by
  decide

theorem glossLoop_some_fst : ∀ (rest : List Node) (res found : Bool) (g : Node) (ds : List Diag),
    (glossLoop rest res found (some g) ds).1 = (res && rest.isEmpty) := by
  intro rest
  induction rest with
  | nil => intro res found g ds; simp [glossLoop]
  | cons n rest2 ih => intro res found g ds; simp [glossLoop, ih]

theorem glossLoop_some_gl : ∀ (rest : List Node) (res found : Bool) (g : Node) (ds : List Diag),
    (glossLoop rest res found (some g) ds).2.2 = some g := by
  intro rest
  induction rest with
  | nil => intro res found g ds; simp [glossLoop]
  | cons n rest2 ih => intro res found g ds; simp [glossLoop, ih]

theorem glossLoop_search : ∀ (body : List Node) (ds : List Diag),
    ((glossLoop body true false none ds).2.2 = none → glossPassSpec body = false)
    ∧ (∀ g, (glossLoop body true false none ds).2.2 = some g →
        (glossLoop body true false none ds).1 = glossPassSpec body) := by
  intro body
  induction body with
  | nil =>
    intro ds
    refine ⟨fun _ => rfl, fun g hg => by simp [glossLoop] at hg⟩
  | cons n rest ih =>
    intro ds
    by_cases hn : isGlossaryHeader n = true
    · cases rest with
      | nil =>
        refine ⟨fun _ => ?_, fun g hg => ?_⟩
        · simp [glossPassSpec, hn]
        · simp [glossLoop, hn] at hg
      | cons m rest2 =>
        have hstep : glossLoop (n :: m :: rest2) true false none ds
            = glossLoop rest2 true true (some m) ds := by
          simp [glossLoop, hn]
        refine ⟨fun hnone => ?_, fun g hg => ?_⟩
        · rw [hstep, glossLoop_some_gl] at hnone
          exact absurd hnone (by simp)
        · rw [hstep, glossLoop_some_fst]
          cases rest2 with
          | nil => simp [glossPassSpec, hn]
          | cons p rest3 => simp [glossPassSpec, hn]
    · have hstep : glossLoop (n :: rest) true false none ds
          = glossLoop rest true false none ds := by
        simp [glossLoop, hn]
      refine ⟨fun hnone => ?_, fun g hg => ?_⟩
      · rw [hstep] at hnone
        simpa [glossPassSpec, hn] using (ih ds).1 hnone
      · rw [hstep] at hg ⊢
        simpa [glossPassSpec, hn] using (ih ds).2 g hg

/-- Claim C2 amended: the glossary check passes exactly when the body
contains a Header (of any level) titled Glossary and exactly one node,
of any type whatsoever, follows the first such header; nodes before the
first Glossary header are ignored, the type of the following node is
never inspected (a paragraph suffices), no following node is the
missing-glossary error and more than one is the extra-element error. -/
theorem C2_glossary_amended :
    ∀ (body : List Node), (validate_glossary body).1 = glossPassSpec body := by
  intro body
  rcases hg : (glossLoop body true false none []).2.2 with _ | g
  · have h1 := (glossLoop_search body []).1 hg
    simp only [validate_glossary]
    rw [hg]
    simpa using h1.symm
  · have h2 := (glossLoop_search body []).2 g hg
    simp only [validate_glossary]
    rw [hg]
    simpa using h2

theorem ite_fst_self (c t : Bool) : (if c = true then t else c) = (c && t) := by
  cases c <;> simp

theorem validate_headings_true_fst (expected : List String) (headings : List (Nat × String)) :
    (validate_headings expected true headings).1
      = ((((andAcc validate_one_heading headings true []).1
          && (expected.filter (fun e => !((headings.map Prod.snd).contains e))).isEmpty)
          && ((headings.map Prod.snd).filter (fun t => !(expected.contains t))).isEmpty)
        && (headingsZip expected ((headings.filter (fun h => h.1 == 2)).map Prod.snd)).1) := by
  show (if ((((andAcc validate_one_heading headings true []).1
      && (expected.filter (fun e => !((headings.map Prod.snd).contains e))).isEmpty)
      && ((headings.map Prod.snd).filter (fun t => !(expected.contains t))).isEmpty) = true)
    then ((headingsZip expected ((headings.filter (fun h => h.1 == 2)).map Prod.snd)).1,
      (andAcc validate_one_heading headings true []).2
        ++ (expected.filter (fun e => !((headings.map Prod.snd).contains e))).map
            Diag.docMissingHeading
        ++ ((headings.map Prod.snd).filter (fun t => !(expected.contains t))).map
            Diag.docExtraHeading
        ++ (headingsZip expected ((headings.filter (fun h => h.1 == 2)).map Prod.snd)).2)
    else ((((andAcc validate_one_heading headings true []).1
      && (expected.filter (fun e => !((headings.map Prod.snd).contains e))).isEmpty)
      && ((headings.map Prod.snd).filter (fun t => !(expected.contains t))).isEmpty),
      (andAcc validate_one_heading headings true []).2
        ++ (expected.filter (fun e => !((headings.map Prod.snd).contains e))).map
            Diag.docMissingHeading
        ++ ((headings.map Prod.snd).filter (fun t => !(expected.contains t))).map
            Diag.docExtraHeading)).1 = _
  rw [apply_ite Prod.fst]
  exact ite_fst_self _ _

theorem validate_headings_false_fst (expected : List String) (headings : List (Nat × String)) :
    (validate_headings expected false headings).1
      = ((andAcc validate_one_heading headings true []).1
          && (expected.filter (fun e => !((headings.map Prod.snd).contains e))).isEmpty) := rfl

/-- Claim C3 counterexample: the claim quantifies over all templates,
including those whose warn-on-extra-headings flag is false, and demands
that any single insertion into the expected heading sequence make the
heading check fail.  For the instructor template (flag false, expected
Legend then Overall) the document with the level-2 headings Legend,
Extra, Overall - a single insertion - passes the heading check. -/
theorem C3_counterexample :
    (validate_headings InstructorPageTemplate.headings
      InstructorPageTemplate.warnExtraHeadings
      [(2, "Legend"), (2, "Extra"), (2, "Overall")]).1 = true := by
  decide

/-- Claim C3 amended: for documents whose top-level headings are all level
2, the heading check passes iff, when the warn-on-extra-headings flag of
the template is true, the title sequence equals the expected sequence
element for element (hence any insertion, deletion or transposition
fails), and, when the flag is false, iff every expected heading occurs
among the titles, so deletions still fail but insertions and
transpositions of present headings can pass. -/
theorem C3_headings_amended :
    ∀ (expected : List String) (headings : List (Nat × String)),
      (∀ h ∈ headings, h.1 = 2) →
      (((validate_headings expected true headings).1 = true ↔
          headings.map Prod.snd = expected)
        ∧ ((validate_headings expected false headings).1 = true ↔
          ∀ e ∈ expected, e ∈ headings.map Prod.snd)) := by
  intro expected headings h2
  have hacc : andAcc validate_one_heading headings true [] = (true, []) :=
    andAcc_all_true _ headings [] (fun x hx => by simp [validate_one_heading, h2 x hx])
  have hfilter : headings.filter (fun h => h.1 == 2) = headings :=
    List.filter_eq_self.mpr (fun a ha => by simp [h2 a ha])
  constructor
  · rw [validate_headings_true_fst, hacc, hfilter]
    constructor
    · intro htrue
      simp only [Bool.and_eq_true] at htrue
      obtain ⟨⟨⟨_, _⟩, _⟩, hzip⟩ := htrue
      exact ((headingsZip_fst_iff _ _).mp hzip).symm
    · intro heq
      have hm : expected.filter (fun e => !((headings.map Prod.snd).contains e)) = [] := by
        rw [heq]
        refine List.filter_eq_nil.mpr (fun a ha => ?_)
        simp [List.contains, List.elem_iff, ha]
      have he : (headings.map Prod.snd).filter (fun t => !(expected.contains t)) = [] := by
        rw [← heq]
        refine List.filter_eq_nil.mpr (fun a ha => ?_)
        simp [List.contains, List.elem_iff, ha]
      have hz : (headingsZip expected (headings.map Prod.snd)).1 = true :=
        (headingsZip_fst_iff _ _).mpr heq.symm
      rw [hm, he]
      simp only [List.isEmpty_nil, Bool.and_true, Bool.true_and]
      exact hz
  · rw [validate_headings_false_fst, hacc]
    simp only [Prod.fst, Bool.true_and]
    rw [List.isEmpty_iff, List.filter_eq_nil]
    constructor
    · intro hall e he
      have := hall e he
      simpa [List.contains, List.elem_iff] using this
    · intro hall e he
      simp [List.contains, List.elem_iff, hall e he]

theorem C3_witness :
    (validate_headings ["Legend", "Overall"] true [(2, "Legend"), (2, "Overall")]).1 = true :=
  (C3_headings_amended ["Legend", "Overall"] [(2, "Legend"), (2, "Overall")]
    (by decide)).1.mpr (by decide)

/-- Claim C9: the topic template expects no headings while it keeps the
inherited warn-on-extra-headings flag, so its heading check passes
exactly on documents with no top-level heading: the presence of any
top-level heading, of any level and title, makes the check fail. -/
theorem C9_topic_headings :
    ∀ (headings : List (Nat × String)),
      (validate_headings TopicPageTemplate.headings TopicPageTemplate.warnExtraHeadings
        headings).1 = headings.isEmpty := by
  intro hs
  cases hs with
  | nil => decide
  | cons h t =>
    show (validate_headings [] true (h :: t)).1 = false
    rw [validate_headings_true_fst]
    have he : (((h :: t).map Prod.snd).filter
        (fun s => !(([] : List String).contains s))).isEmpty = false := by
      simp [List.contains]
    rw [he]
    simp

/-- Claim C6: the claim states that every non-absolute link target ending
in .htm or .html is rewritten to the sibling .md path, whose existence is
then required.  The source tests the suffix with the regex for htm-or-html
but rewrites with the literal replacement of .html by .md, which leaves a
.htm path unchanged: the link check then looks for the .htm file itself.
Evaluated at the target page.htm: the suffix test matches, the replacement
does nothing, a present page.md is ignored (the check fails anyway), and a
present page.htm satisfies the check without any markdown file. -/
theorem C6_htm_not_rewritten :
    endsWithHtml "page.htm" = true
    ∧ strReplace "page.htm" ".html" ".md" = "page.htm"
    ∧ validate_one_link ⟨fun p => p == "page.md", fun _ => []⟩ "" "doc.md" "page.htm"
        = (false, [Diag.missingMarkdownFile "page.htm" "page.htm"])
    ∧ (validate_one_link ⟨fun p => p == "page.htm", fun _ => []⟩ "" "doc.md" "page.htm").1
        = true := by
  refine ⟨by decide, by decide, by decide, by decide⟩

/-- Claim C7: the claim reads the intro-section check as passing exactly
when the first body node is a Paragraph and the second a BlockQuote whose
first child is a Header and whose second a Paragraph.  The source returns
False as soon as one of its predicates holds, so the canonical valid
shape - the shape the unit test test_pass_when_prereq_section_has_
correct_heading_level expects to pass - is rejected at its very first
branch, while a body starting with two non-paragraph, non-blockquote
nodes is accepted.  The helper predicates, absent from the snapshot, are
modelled from the spec as plain typed questions. -/
theorem C7_intro_polarity :
    validate_intro_section [Node.Para "Paragraph of introductory material.",
        Node.BlockQuote [Node.Header 2 "Prerequisites" [], Node.Para "A short paragraph."]]
      = (false, [Diag.introNotParagraph])
    ∧ (validate_intro_section [Node.BulletList, Node.DefinitionList]).1 = true := by
  exact ⟨rfl, rfl⟩

theorem one_link_good (fs : FileSystem) (fname : String) :
    validate_one_link fs "" fname "page.html#slug"
      = (if !(fs.isfile "page.md") then
          (false, [Diag.missingMarkdownFile "page.html#slug" "page.md"])
        else if !((fs.anchors "page.md").contains "slug") then
          (false, [Diag.missingAnchor "page.html#slug" "slug" "page.md"])
        else (true, [])) := rfl

theorem one_link_bad (fs : FileSystem) (fname : String) :
    validate_one_link fs "" fname "page.html#nope"
      = (if !(fs.isfile "page.md") then
          (false, [Diag.missingMarkdownFile "page.html#nope" "page.md"])
        else if !((fs.anchors "page.md").contains "nope") then
          (false, [Diag.missingAnchor "page.html#nope" "nope" "page.md"])
        else (true, [])) := rfl

theorem links_single (fs : FileSystem) (lessonDir fname text address : String) :
    validate_links fs lessonDir fname [(text, address)]
      = validate_one_link fs lessonDir fname address := rfl

/-- Claim C5: for a document whose only link is the local anchor reference
page.html#slug, the link check passes exactly when the sibling markdown
file page.md exists and slug is in its anchor set (first conjunct,
quantified over every filesystem); and changing the anchor to an absent
slug makes the aggregate of run_tests fail with exactly one additional
diagnostic, the missing-anchor error, the results and diagnostics of
every other sub-check unchanged (second conjunct). -/
theorem C5_link_round_trip :
    (∀ (fs : FileSystem) (fname : String),
      (validate_links fs "" fname [("text", "page.html#slug")]).1
        = (fs.isfile "page.md" && (fs.anchors "page.md").contains "slug"))
    ∧ (∀ (fs : FileSystem) (spec : TemplateSpec) (fname : String) (rawLines : List String)
        (header : List (String × String)) (body : List Node) (r : Bool × List Diag),
        fs.isfile "page.md" = true →
        (fs.anchors "page.md").contains "slug" = true →
        (fs.anchors "page.md").contains "nope" = false →
        run_tests fs spec "" fname rawLines header body [("text", "page.html#slug")] = .ok r →
        run_tests fs spec "" fname rawLines header body [("text", "page.html#nope")]
          = .ok (false, r.2 ++ [Diag.missingAnchor "page.html#nope" "nope" "page.md"])) := by
  constructor
  · intro fs fname
    rw [links_single, one_link_good]
    cases hf : fs.isfile "page.md" <;>
      cases ha : (fs.anchors "page.md").contains "slug" <;> rfl
  · intro fs spec fname rawLines header body r hf ha hn hrun
    have hgood : validate_links fs "" fname [("text", "page.html#slug")] = (true, []) := by
      rw [links_single, one_link_good, hf, ha]
      rfl
    have hbad : validate_links fs "" fname [("text", "page.html#nope")]
        = (false, [Diag.missingAnchor "page.html#nope" "nope" "page.md"]) := by
      rw [links_single, one_link_bad, hf, hn]
      rfl
    simp only [run_tests] at hrun ⊢
    cases hbox : validate_boxes spec (get_boxes body) with
    | error ds => rw [hbox] at hrun; simp at hrun
    | ok t4 =>
      rw [hbox] at hrun
      simp only [hgood, hbad, Bool.and_true, List.append_nil] at hrun ⊢
      simp only [Except.ok.injEq] at hrun
      subst hrun
      simp [List.append_assoc]

theorem C5_witness :
    run_tests ⟨fun p => p == "page.md", fun p => if p == "page.md" then ["slug"] else []⟩
      DiscussionPageTemplate "" "doc.md" [] [] [] [("text", "page.html#nope")]
      = .ok (false,
          ([Diag.missingYamlHeader] : List Diag)
            ++ [Diag.missingAnchor "page.html#nope" "nope" "page.md"]) :=
  C5_link_round_trip.2
    ⟨fun p => p == "page.md", fun p => if p == "page.md" then ["slug"] else []⟩
    DiscussionPageTemplate "doc.md" [] [] [] (false, [Diag.missingYamlHeader])
    (by decide) (by decide) (by decide) (by rfl)

theorem natListLe_total : ∀ (a b : List Nat), natListLe a b = true ∨ natListLe b a = true := by
  intro a
  induction a with
  | nil => intro b; left; rfl
  | cons x xs ih =>
    intro b
    cases b with
    | nil => right; rfl
    | cons y ys =>
      rcases Nat.lt_trichotomy x y with h | h | h
      · left; simp [natListLe, h]
      · subst h
        rcases ih ys with h2 | h2
        · left; simp [natListLe, h2]
        · right; simp [natListLe, h2]
      · right; simp [natListLe, h]

theorem natListLe_trans : ∀ (a b c : List Nat),
    natListLe a b = true → natListLe b c = true → natListLe a c = true := by
  intro a
  induction a with
  | nil => intro b c _ _; rfl
  | cons x xs ih =>
    intro b c hab hbc
    cases b with
    | nil => simp [natListLe] at hab
    | cons y ys =>
      cases c with
      | nil => simp [natListLe] at hbc
      | cons z zs =>
        by_cases hxy : x < y
        · by_cases hyz : y < z
          · simp [natListLe, Nat.lt_trans hxy hyz]
          · by_cases hyz2 : y = z
            · subst hyz2; simp [natListLe, hxy]
            · simp [natListLe, hyz, hyz2] at hbc
        · by_cases hxy2 : x = y
          · subst hxy2
            simp only [natListLe, Nat.lt_irrefl, if_false, if_pos rfl] at hab
            by_cases hyz : x < z
            · simp [natListLe, hyz]
            · by_cases hyz2 : x = z
              · subst hyz2
                simp only [natListLe, Nat.lt_irrefl, if_false, if_pos rfl] at hbc ⊢
                exact ih ys zs hab hbc
              · simp [natListLe, hyz, hyz2] at hbc
          · simp [natListLe, hxy, hxy2] at hab

theorem natListLe_antisymm : ∀ (a b : List Nat),
    natListLe a b = true → natListLe b a = true → a = b := by
  intro a
  induction a with
  | nil =>
    intro b h1 h2
    cases b with
    | nil => rfl
    | cons y ys => simp [natListLe] at h2
  | cons x xs ih =>
    intro b h1 h2
    cases b with
    | nil => simp [natListLe] at h1
    | cons y ys =>
      by_cases hxy : x < y
      · simp [natListLe, Nat.lt_asymm hxy, Nat.ne_of_lt' hxy] at h2
      · by_cases hxy2 : x = y
        · subst hxy2
          simp only [natListLe, Nat.lt_irrefl, if_false, if_pos rfl] at h1 h2
          exact congrArg (x :: ·) (ih ys h1 h2)
        · simp [natListLe, hxy, hxy2] at h1

theorem char_toNat_inj : Function.Injective Char.toNat := by
  intro a b h
  have h2 := congrArg Char.ofNat h
  rwa [Char.ofNat_toNat, Char.ofNat_toNat] at h2

theorem strKey_inj : ∀ (s t : String), strKey s = strKey t → s = t := by
  intro s t h
  have hd : s.data = t.data := List.map_injective_iff.mpr char_toNat_inj h
  cases s
  cases t
  exact congrArg String.mk hd

instance : IsTotal String strLeP := ⟨fun s t => natListLe_total _ _⟩

instance : IsTrans String strLeP := ⟨fun _ _ _ hab hbc => natListLe_trans _ _ _ hab hbc⟩

instance : IsAntisymm String strLeP :=
  ⟨fun a b h1 h2 => strKey_inj _ _ (natListLe_antisymm _ _ h1 h2)⟩

theorem sortKeys_perm (l : List String) : (sortKeys l).Perm l :=
  List.perm_insertionSort _ _

theorem sortKeys_eq_of_perm {l₁ l₂ : List String} (h : l₁.Perm l₂) :
    sortKeys l₁ = sortKeys l₂ :=
  List.eq_of_perm_of_sorted ((sortKeys_perm l₁).trans (h.trans (sortKeys_perm l₂).symm))
    (List.sorted_insertionSort _ _) (List.sorted_insertionSort _ _)

theorem lookup_eq_of_nodup : ∀ (l : List (String × String)) (k v : String),
    (l.map Prod.fst).Nodup → (k, v) ∈ l → l.lookup k = some v := by
  intro l
  induction l with
  | nil => intro k v _ h; simp at h
  | cons kv rest ih =>
    obtain ⟨a, b⟩ := kv
    intro k v hnd hmem
    rcases List.mem_cons.mp hmem with heq | hmem2
    · cases heq
      simp [List.lookup]
    · have hk : k ∈ rest.map Prod.fst := List.mem_map_of_mem Prod.fst hmem2
      have hnd2 : a ∉ rest.map Prod.fst ∧ (rest.map Prod.fst).Nodup := by
        rw [List.map_cons] at hnd
        exact List.nodup_cons.mp hnd
      have hne : ¬ (k == a) = true := by
        intro hh
        have hka : k = a := by simpa using hh
        exact hnd2.1 (hka ▸ hk)
      simp only [List.lookup, hne, Bool.false_eq_true, if_false]
      exact ih k v hnd2.2 hmem2

/-- Claim C4: the front-matter check fails on an empty front matter; a
non-empty front matter whose key set (keys are unique, as in a dict)
equals the template's expected key set exactly - stated as a permutation
of the key lists, which for duplicate-free lists is set equality - with
every value accepted by the validator registered for its key passes; and
whenever the present key multiset differs from the expected one (an extra
key, a missing key, or the resulting mismatch at a sorted position) the
check emits at least one diagnostic and fails. -/
theorem C4_front_matter :
    ∀ (spec : TemplateSpec) (header : List (String × String)),
      (header = [] → (validate_header spec header).1 = false)
      ∧ (header ≠ [] →
          (header.map Prod.fst).Nodup →
          (header.map Prod.fst).Perm (spec.yamlHeader.map Prod.fst) →
          (∀ kv ∈ header, headerValueOk spec kv = true) →
          (validate_header spec header).1 = true)
      ∧ (¬ (header.map Prod.fst).Perm (spec.yamlHeader.map Prod.fst) →
          (validate_header spec header).1 = false
            ∧ (validate_header spec header).2 ≠ []) := by
  intro spec header
  refine ⟨fun he => by subst he; rfl, ?_, ?_⟩
  · intro hne hnd hperm hvals
    have h0 : ¬ (header.length = 0) := by simpa [List.length_eq_zero] using hne
    have hloop : andAcc (fun kv => validate_one_element_from_header spec header kv.1)
        header true [] = (true, []) := by
      apply andAcc_all_true
      intro kv hkv
      have hv := hvals kv hkv
      unfold headerValueOk at hv
      cases hlk : spec.yamlHeader.lookup kv.1 with
      | none => rw [hlk] at hv; simp at hv
      | some f =>
        simp only [hlk] at hv
        have hl2 : header.lookup kv.1 = some kv.2 :=
          lookup_eq_of_nodup header kv.1 kv.2 hnd (by simpa using hkv)
        simp [validate_one_element_from_header, hlk, hl2, hv]
    have hsort : sortKeys (spec.yamlHeader.map Prod.fst) = sortKeys (header.map Prod.fst) :=
      sortKeys_eq_of_perm hperm.symm
    have hz : (headerZip (sortKeys (spec.yamlHeader.map Prod.fst))
        (sortKeys (header.map Prod.fst))).1 = true := by
      rw [hsort]
      exact (headerZip_fst_iff _ _).mpr rfl
    simp only [validate_header]
    rw [if_neg h0]
    simp [hloop, hz]
  · intro hnp
    by_cases hemp : header = []
    · subst hemp
      exact ⟨rfl, by simp [validate_header]⟩
    · have h0 : ¬ (header.length = 0) := by simpa [List.length_eq_zero] using hemp
      have hs : sortKeys (spec.yamlHeader.map Prod.fst) ≠ sortKeys (header.map Prod.fst) := by
        intro hh
        apply hnp
        have p1 : (header.map Prod.fst).Perm (sortKeys (header.map Prod.fst)) :=
          (sortKeys_perm _).symm
        have p2 : (sortKeys (spec.yamlHeader.map Prod.fst)).Perm
            (spec.yamlHeader.map Prod.fst) := sortKeys_perm _
        exact p1.trans (hh ▸ p2)
      have hzf : (headerZip (sortKeys (spec.yamlHeader.map Prod.fst))
          (sortKeys (header.map Prod.fst))).1 = false := by
        rcases Bool.eq_false_or_eq_true ((headerZip (sortKeys (spec.yamlHeader.map Prod.fst))
            (sortKeys (header.map Prod.fst))).1) with h | h
        · exact absurd ((headerZip_fst_iff _ _).mp h) hs
        · exact h
      have hzs : (headerZip (sortKeys (spec.yamlHeader.map Prod.fst))
          (sortKeys (header.map Prod.fst))).2 ≠ [] := headerZip_snd_ne _ _ hs
      constructor
      · simp only [validate_header]
        rw [if_neg h0]
        simp [hzf]
      · simp only [validate_header]
        rw [if_neg h0]
        simpa using List.append_ne_nil_of_right_ne_nil _ hzs

theorem C4_witness :
    (validate_header IndexPageTemplate []).1 = false
    ∧ (validate_header IndexPageTemplate [("title", "Lesson Title"), ("layout", "lesson")]).1
        = true
    ∧ (validate_header IndexPageTemplate [("layout", "lesson"), ("other", "x"), ("title", "T")]).1
        = false
    ∧ (validate_header IndexPageTemplate [("layout", "lesson"), ("other", "x"), ("title", "T")]).2
        ≠ [] := by
  refine ⟨(C4_front_matter IndexPageTemplate []).1 rfl,
    (C4_front_matter IndexPageTemplate [("title", "Lesson Title"), ("layout", "lesson")]).2.1
      (by decide) (by decide) (by decide) (by decide),
    ((C4_front_matter IndexPageTemplate
      [("layout", "lesson"), ("other", "x"), ("title", "T")]).2.2 (by decide)).1,
    ((C4_front_matter IndexPageTemplate
      [("layout", "lesson"), ("other", "x"), ("title", "T")]).2.2 (by decide)).2⟩

theorem objectives_raises (b : Node) (h : (boxChildren b).length = 1) :
    is_objectives_box b = .error [Diag.emptyBox (boxHeadString b)] := by
  have hg : (boxChildren b).get? 1 = none := List.get?_eq_none.mpr (by omega)
  simp only [is_objectives_box, hg, is_box_nonempty, h, if_pos]

theorem prereq_raises (b : Node) (h : (boxChildren b).length = 1) :
    ∃ ds, is_prereq_box b = .error ds := by
  have hg : (boxChildren b).get? 1 = none := List.get?_eq_none.mpr (by omega)
  simp only [is_prereq_box, hg]
  exact ⟨_, rfl⟩

theorem boxesLoop_raises : ∀ (boxes : List Node) (res : Bool) (ds : List Diag)
    (cs : List (Option String × Nat)),
    (∃ b ∈ boxes, (get_box_type b = some "objectives" ∨ get_box_type b = some "prereq")
      ∧ (boxChildren b).length = 1) →
    ∃ ds2, boxesLoop boxes res ds cs = .error ds2 := by
  intro boxes
  induction boxes with
  | nil => intro res ds cs h; simp at h
  | cons b rest ih =>
    intro res ds cs h
    by_cases hb : (get_box_type b = some "objectives" ∨ get_box_type b = some "prereq")
        ∧ (boxChildren b).length = 1
    · obtain ⟨htype, hlen⟩ := hb
      rcases htype with ht | ht
      · have hf : lookupBoxFn (get_box_type b) = some is_objectives_box := by rw [ht]; rfl
        have hdse := objectives_raises b hlen
        simp only [boxesLoop, hf, hdse]
        exact ⟨_, rfl⟩
      · have hf : lookupBoxFn (get_box_type b) = some is_prereq_box := by rw [ht]; rfl
        obtain ⟨dse, hdse⟩ := prereq_raises b hlen
        simp only [boxesLoop, hf, hdse]
        exact ⟨_, rfl⟩
    · have hrest : ∃ b2 ∈ rest,
          (get_box_type b2 = some "objectives" ∨ get_box_type b2 = some "prereq")
            ∧ (boxChildren b2).length = 1 := by
        obtain ⟨b2, hb2m, hb2⟩ := h
        rcases List.mem_cons.mp hb2m with heq | hmm2
        · exact absurd (heq ▸ hb2) hb
        · exact ⟨b2, hmm2, hb2⟩
      rcases hlf : lookupBoxFn (get_box_type b) with _ | f
      · simp only [boxesLoop, hlf]
        exact ih _ _ _ hrest
      · rcases hfb : f b with dse | r
        · simp only [boxesLoop, hlf, hfb]
          exact ⟨_, rfl⟩
        · simp only [boxesLoop, hlf, hfb]
          by_cases hr : r.1 = true
          · rw [if_pos hr]
            exact ih _ _ _ hrest
          · rw [if_neg hr]
            exact ih _ _ _ hrest

/-- Claim C10: a box tagged objectives or prereq whose blockquote holds
exactly one child (the heading alone) makes the shape check read the
second child without a bounds guard - the modelled IndexError - instead
of returning False (first two conjuncts); and once such a box is among a
document's boxes, run_tests aborts inside the box check with a
diagnostic list that does not depend on the filesystem or on the link
list (the link check never runs, so its diagnostics are never produced),
and validate catches the IndexError and returns False with only the
missing-critical-sections message appended (third conjunct). -/
theorem C10_single_child_box_raises :
    (∀ b : Node, (boxChildren b).length = 1 → ∃ ds, is_objectives_box b = .error ds)
    ∧ (∀ b : Node, (boxChildren b).length = 1 → ∃ ds, is_prereq_box b = .error ds)
    ∧ (∀ (spec : TemplateSpec) (lessonDir fname : String) (rawLines : List String)
        (header : List (String × String)) (body : List Node),
        (∃ b ∈ get_boxes body,
          (get_box_type b = some "objectives" ∨ get_box_type b = some "prereq")
            ∧ (boxChildren b).length = 1) →
        ∃ ds, ∀ (fs : FileSystem) (links : List (String × String)),
          run_tests fs spec lessonDir fname rawLines header body links = .error ds
          ∧ validate fs spec lessonDir fname rawLines header body links
              = (false, ds ++ [Diag.criticalSections])) := by
  refine ⟨fun b h => ⟨_, objectives_raises b h⟩, fun b h => prereq_raises b h, ?_⟩
  intro spec lessonDir fname rawLines header body hyp
  obtain ⟨ds2, h2⟩ := boxesLoop_raises (get_boxes body) true [] [] hyp
  have hvb : validate_boxes spec (get_boxes body) = .error ds2 := by
    simp only [validate_boxes, h2]
  refine ⟨(validate_no_fixme rawLines).2 ++ (validate_header spec header).2
    ++ (validate_headings spec.headings spec.warnExtraHeadings (get_headings body)).2
    ++ ds2, fun fs links => ?_⟩
  constructor
  · simp only [run_tests, hvb]
  · simp only [validate, run_tests, hvb]

theorem C10_witness :
    ∃ ds, ∀ (fs : FileSystem) (links : List (String × String)),
      run_tests fs DiscussionPageTemplate "" "01-lesson.md" [] []
        [Node.BlockQuote [Node.Header 2 "Learning Objectives" ["objectives"]]] links
        = .error ds
      ∧ validate fs DiscussionPageTemplate "" "01-lesson.md" [] []
        [Node.BlockQuote [Node.Header 2 "Learning Objectives" ["objectives"]]] links
        = (false, ds ++ [Diag.criticalSections]) :=
  C10_single_child_box_raises.2.2 DiscussionPageTemplate "" "01-lesson.md" [] []
    [Node.BlockQuote [Node.Header 2 "Learning Objectives" ["objectives"]]]
    ⟨Node.BlockQuote [Node.Header 2 "Learning Objectives" ["objectives"]],
      List.mem_singleton_self _, by decide⟩


theorem countersGet_nil (t : Option String) : countersGet [] t = none := rfl

theorem countersGet_cons (kv : Option String × Nat) (rest : List (Option String × Nat))
    (t : Option String) :
    countersGet (kv :: rest) t = if kv.1 = t then some kv.2 else countersGet rest t := by
  by_cases h : kv.1 = t
  · rw [countersGet, List.find?_cons_of_pos _ (by simp [h]), if_pos h]
    rfl
  · rw [countersGet, List.find?_cons_of_neg _ (by simp [h]), if_neg h]
    rfl

theorem countersGet_append_single (cs : List (Option String × Nat)) (t t' : Option String) :
    countersGet (cs ++ [(t, 0)]) t'
      = (match countersGet cs t' with
        | some c => some c
        | none => if t' = t then some 0 else none) := by
  induction cs with
  | nil =>
    by_cases h : t' = t
    · subst h
      simp [countersGet_cons, countersGet_nil]
    · simp [countersGet_cons, countersGet_nil, h, Ne.symm h]
  | cons kv rest ih =>
    by_cases h : kv.1 = t'
    · simp [countersGet_cons, h]
    · simp [countersGet_cons, h, ih]

theorem countersGet_init (cs : List (Option String × Nat)) (t t' : Option String) :
    countersGet (countersInit cs t) t'
      = (match countersGet cs t' with
        | some c => some c
        | none => if t' = t then some 0 else none) := by
  by_cases hhas : countersHas cs t = true
  · rw [countersInit, if_pos hhas]
    cases hcg : countersGet cs t' with
    | some c => rfl
    | none =>
      by_cases ht : t' = t
      · subst ht
        exfalso
        have hex : ∃ kv ∈ cs, kv.1 = t' := by
          simpa [countersHas, List.any_eq_true] using hhas
        obtain ⟨kv, hmem, hkv⟩ := hex
        have hfind : cs.find? (fun kv => kv.1 = t') = none := Option.map_eq_none'.mp hcg
        have hnone := List.find?_eq_none.mp hfind kv hmem
        simp [hkv] at hnone
      · simp [ht]
  · rw [countersInit, if_neg hhas, countersGet_append_single]

theorem countersGet_inc (cs : List (Option String × Nat)) (t t' : Option String) :
    countersGet (countersInc cs t) t'
      = if t' = t then (countersGet cs t').map (· + 1) else countersGet cs t' := by
  induction cs with
  | nil => by_cases ht : t' = t <;> simp [countersInc, countersGet_nil, ht]
  | cons kv rest ih =>
    rw [countersInc, List.map_cons]
    by_cases h1 : kv.1 = t
    · rw [if_pos h1]
      by_cases h2 : t' = t
      · have h3 : kv.1 = t' := h1.trans h2.symm
        simp [countersGet_cons, h2, h3]
      · have h3 : ¬ (kv.1 = t') := fun hh => h2 (hh.symm.trans h1)
        have ih2 := ih
        rw [countersInc] at ih2
        simp [countersGet_cons, h2, h3, ih2]
    · rw [if_neg h1]
      by_cases h3 : kv.1 = t'
      · have h2 : ¬ (t' = t) := fun hh => h1 (h3.trans hh)
        simp [countersGet_cons, h2, h3]
      · have ih2 := ih
        rw [countersInc] at ih2
        simp [countersGet_cons, h3, ih2]

theorem shape_passed_of_fn (b : Node) (f : Node → Except (List Diag) (Bool × List Diag))
    (rr : Bool × List Diag) (hlf : lookupBoxFn (get_box_type b) = some f)
    (hfb : f b = .ok rr) : shape_passed b = rr.1 := by
  simp [shape_passed, hlf, hfb]

theorem shape_passed_none (b : Node) (hlf : lookupBoxFn (get_box_type b) = none) :
    shape_passed b = false := by
  simp [shape_passed, hlf]

theorem tallyBoxes_cons (t : String) (b : Node) (rest : List Node) :
    tallyBoxes t (b :: rest)
      = if (decide (get_box_type b = some t) && shape_passed b) = true
        then tallyBoxes t rest + 1 else tallyBoxes t rest := by
  by_cases hb : (decide (get_box_type b = some t) && shape_passed b) = true
  · simp only [tallyBoxes, List.filter_cons, hb, if_pos, List.length_cons, if_true]
  · simp only [tallyBoxes, List.filter_cons, hb, if_false, Bool.false_eq_true]

theorem boxesLoop_counters :
    ∀ (boxes : List Node) (res : Bool) (ds : List Diag)
      (cs : List (Option String × Nat)) (r : Bool × List Diag × List (Option String × Nat)),
      boxesLoop boxes res ds cs = .ok r →
      ∀ t : String, countersGet r.2.2 (some t)
        = (match countersGet cs (some t) with
          | some c => some (c + tallyBoxes t boxes)
          | none =>
            if boxes.any (fun b => decide (get_box_type b = some t)) then
              some (tallyBoxes t boxes)
            else none) := by
  intro boxes
  induction boxes with
  | nil =>
    intro res ds cs r hok t
    simp only [boxesLoop, Except.ok.injEq] at hok
    subst hok
    cases hcg : countersGet cs (some t) with
    | some c => simp [tallyBoxes]
    | none => simp [tallyBoxes]
  | cons b rest ih =>
    intro res ds cs r hok t
    simp only [boxesLoop] at hok
    rcases hlf : lookupBoxFn (get_box_type b) with _ | f
    · -- unknown type
      rw [hlf] at hok
      have hstep := ih _ _ _ _ hok t
      have hsp : shape_passed b = false := shape_passed_none b hlf
      have htally : tallyBoxes t (b :: rest) = tallyBoxes t rest := by
        rw [tallyBoxes_cons]
        simp [hsp]
      rw [hstep, countersGet_init, htally, List.any_cons]
      by_cases hbt : get_box_type b = some t
      · cases hcg : countersGet cs (some t) with
        | some c => simp
        | none => simp [hbt]
      · have hbt2 : ¬ (some t = get_box_type b) := fun hh => hbt hh.symm
        cases hcg : countersGet cs (some t) with
        | some c => simp
        | none => simp [hbt2, hbt]
    · simp only [hlf] at hok
      rcases hfb : f b with dse | rr
      · simp only [hfb] at hok
        exact absurd hok (by simp)
      · simp only [hfb] at hok
        by_cases hr : rr.1 = true
        · rw [if_pos hr] at hok
          have hstep := ih _ _ _ _ hok t
          have hsp : shape_passed b = true := by
            rw [shape_passed_of_fn b f rr hlf hfb]
            exact hr
          have htally : tallyBoxes t (b :: rest)
              = if get_box_type b = some t then tallyBoxes t rest + 1
                else tallyBoxes t rest := by
            rw [tallyBoxes_cons]
            simp [hsp]
          rw [hstep, countersGet_inc, countersGet_init, htally, List.any_cons]
          by_cases hbt : get_box_type b = some t
          · cases hcg : countersGet cs (some t) with
            | some c =>
              simp [hbt]
              omega
            | none =>
              simp [hbt]
              omega
          · have hbt2 : ¬ (some t = get_box_type b) := fun hh => hbt hh.symm
            cases hcg : countersGet cs (some t) with
            | some c => simp [hbt2, hbt]
            | none => simp [hbt2, hbt]
        · rw [if_neg hr] at hok
          have hstep := ih _ _ _ _ hok t
          have hsp : shape_passed b = false := by
            rw [shape_passed_of_fn b f rr hlf hfb]
            simpa using hr
          have htally : tallyBoxes t (b :: rest) = tallyBoxes t rest := by
            rw [tallyBoxes_cons]
            simp [hsp]
          rw [hstep, countersGet_init, htally, List.any_cons]
          by_cases hbt : get_box_type b = some t
          · cases hcg : countersGet cs (some t) with
            | some c => simp
            | none => simp [hbt]
          · have hbt2 : ¬ (some t = get_box_type b) := fun hh => hbt hh.symm
            cases hcg : countersGet cs (some t) with
            | some c => simp
            | none => simp [hbt2, hbt]

theorem wellShaped_spec (b : Node) (h : wellShapedBox b = true) :
    get_box_level b = 2
    ∧ ∃ f, lookupBoxFn (get_box_type b) = some f ∧ f b = .ok (true, []) := by
  rw [wellShapedBox, Bool.and_eq_true] at h
  obtain ⟨h1, h2⟩ := h
  refine ⟨by simpa using h1, ?_⟩
  cases hlf : lookupBoxFn (get_box_type b) with
  | none =>
    simp only [hlf] at h2
    exact absurd h2 Bool.false_ne_true
  | some f =>
    simp only [hlf] at h2
    refine ⟨f, rfl, ?_⟩
    cases hfb : f b with
    | error e =>
      simp only [hfb] at h2
      exact absurd h2 Bool.false_ne_true
    | ok rr =>
      simp only [hfb] at h2
      obtain ⟨rb, rds⟩ := rr
      cases rb
      · simp at h2
      · cases rds with
        | nil => rfl
        | cons d ds2 => simp at h2

theorem boxesLoop_wellshaped : ∀ (boxes : List Node) (res : Bool) (ds : List Diag)
    (cs : List (Option String × Nat)),
    (∀ b ∈ boxes, wellShapedBox b = true) →
    ∃ cs', boxesLoop boxes res ds cs = .ok (res, ds, cs') := by
  intro boxes
  induction boxes with
  | nil => intro res ds cs _; exact ⟨cs, rfl⟩
  | cons b rest ih =>
    intro res ds cs hall
    obtain ⟨hlev, f, hlf, hfb⟩ := wellShaped_spec b (hall b (by simp))
    have hstep : boxesLoop (b :: rest) res ds cs
        = boxesLoop rest res ds
            (countersInc (countersInit cs (get_box_type b)) (get_box_type b)) := by
      simp only [boxesLoop, hlf, hfb]
      simp [hlev]
    rw [hstep]
    exact ih res ds _ (fun b2 hb2 => hall b2 (by simp [hb2]))

theorem tallyBoxes_zero_of_not_any (t : String) (boxes : List Node)
    (h : boxes.any (fun b => decide (get_box_type b = some t)) = false) :
    tallyBoxes t boxes = 0 := by
  rw [tallyBoxes, List.length_eq_zero]
  refine List.filter_eq_nil.mpr (fun b hb hpb => ?_)
  rw [Bool.and_eq_true] at hpb
  have h2 : boxes.any (fun b => decide (get_box_type b = some t)) = true :=
    List.any_eq_true.mpr ⟨b, hb, hpb.1⟩
  rw [h] at h2
  exact Bool.false_ne_true h2

theorem expectedLoop_res_false : ∀ (rules : List (String × BoxRule))
    (cs : List (Option String × Nat)) (ds : List Diag),
    (expectedBoxesLoop rules cs false ds).1 = false := by
  intro rules
  induction rules with
  | nil => intro cs ds; rfl
  | cons e rest ih =>
    intro cs ds
    obtain ⟨t, rule⟩ := e
    simp only [expectedBoxesLoop]
    split
    · split
      · exact ih _ _
      · exact ih _ _
    · split
      · exact ih _ _
      · exact ih _ _


theorem expectedLoop_cons_none (t : String) (rule : BoxRule) (rest : List (String × BoxRule))
    (cs : List (Option String × Nat)) (res : Bool) (ds : List Diag)
    (hcg : countersGet cs (some t) = none) :
    expectedBoxesLoop ((t, rule) :: rest) cs res ds
      = if rule.minCount > 0 then expectedBoxesLoop rest cs false (ds ++ [Diag.missingBox t])
        else expectedBoxesLoop rest cs res ds := by
  simp only [expectedBoxesLoop, hcg]

theorem expectedLoop_cons_some (t : String) (rule : BoxRule) (rest : List (String × BoxRule))
    (cs : List (Option String × Nat)) (res : Bool) (ds : List Diag) (c : Nat)
    (hcg : countersGet cs (some t) = some c) :
    expectedBoxesLoop ((t, rule) :: rest) cs res ds
      = if (rule.minCount > c
          || (match rule.maxCount with | some m => decide (m < c) | none => false) : Bool)
        then expectedBoxesLoop rest cs false (ds ++ [Diag.boxCountRange t])
        else expectedBoxesLoop rest cs res ds := by
  simp only [expectedBoxesLoop, hcg]

theorem expectedLoop_clean : ∀ (rules : List (String × BoxRule))
    (cs : List (Option String × Nat)) (res : Bool) (ds : List Diag),
    (∀ e ∈ rules, (match countersGet cs (some e.1) with
      | none => e.2.minCount = 0
      | some c => e.2.minCount ≤ c ∧ ∀ m, e.2.maxCount = some m → c ≤ m)) →
    expectedBoxesLoop rules cs res ds = (res, ds) := by
  intro rules
  induction rules with
  | nil => intro cs res ds _; rfl
  | cons e rest ih =>
    intro cs res ds hall
    obtain ⟨t, rule⟩ := e
    have he : (match countersGet cs (some t) with
        | none => rule.minCount = 0
        | some c => rule.minCount ≤ c ∧ ∀ m, rule.maxCount = some m → c ≤ m) :=
      hall (t, rule) (by simp)
    cases hcg : countersGet cs (some t) with
    | none =>
      simp only [hcg] at he
      rw [expectedLoop_cons_none t rule rest cs res ds hcg,
        if_neg (by omega : ¬ rule.minCount > 0)]
      exact ih _ _ _ (fun e2 he2 => hall e2 (by simp [he2]))
    | some c =>
      simp only [hcg] at he
      obtain ⟨hmin, hmax⟩ := he
      have hcond : (rule.minCount > c
          || (match rule.maxCount with | some m => decide (m < c) | none => false) : Bool)
            = false := by
        rw [Bool.or_eq_false_iff]
        constructor
        · simp only [decide_eq_false_iff_not]
          omega
        · cases hm : rule.maxCount with
          | none => rfl
          | some m =>
            simp only [decide_eq_false_iff_not]
            have := hmax m hm
            omega
      rw [expectedLoop_cons_some t rule rest cs res ds c hcg, if_neg (by rw [hcond]; simp)]
      exact ih _ _ _ (fun e2 he2 => hall e2 (by simp [he2]))

theorem expectedLoop_bad : ∀ (rules : List (String × BoxRule))
    (cs : List (Option String × Nat)) (res : Bool) (ds : List Diag),
    (∃ e ∈ rules, (match countersGet cs (some e.1) with
      | none => 0 < e.2.minCount
      | some c => c < e.2.minCount ∨ ∃ m, e.2.maxCount = some m ∧ m < c)) →
    (expectedBoxesLoop rules cs res ds).1 = false := by
  intro rules
  induction rules with
  | nil => intro cs res ds h; simp at h
  | cons e rest ih =>
    intro cs res ds h
    obtain ⟨t, rule⟩ := e
    rcases h with ⟨e2, he2m, he2⟩
    rcases List.mem_cons.mp he2m with heq | hm2
    · subst heq
      have he2' : (match countersGet cs (some t) with
          | none => 0 < rule.minCount
          | some c => c < rule.minCount ∨ ∃ m, rule.maxCount = some m ∧ m < c) := he2
      cases hcg : countersGet cs (some t) with
      | none =>
        simp only [hcg] at he2'
        rw [expectedLoop_cons_none t rule rest cs res ds hcg,
          if_pos (by omega : rule.minCount > 0)]
        exact expectedLoop_res_false _ _ _
      | some c =>
        simp only [hcg] at he2'
        have hcond : (rule.minCount > c
            || (match rule.maxCount with | some m => decide (m < c) | none => false) : Bool)
              = true := by
          rcases he2' with hlt | ⟨m, hm, hmc⟩
          · rw [Bool.or_eq_true]
            left
            exact decide_eq_true (by omega)
          · rw [Bool.or_eq_true]
            right
            rw [hm]
            exact decide_eq_true hmc
        rw [expectedLoop_cons_some t rule rest cs res ds c hcg, if_pos (by rw [hcond])]
        exact expectedLoop_res_false _ _ _
    · cases hcg : countersGet cs (some t) with
      | none =>
        rw [expectedLoop_cons_none t rule rest cs res ds hcg]
        by_cases hmin : rule.minCount > 0
        · rw [if_pos hmin]
          exact expectedLoop_res_false _ _ _
        · rw [if_neg hmin]
          exact ih _ _ _ ⟨e2, hm2, he2⟩
      | some c =>
        rw [expectedLoop_cons_some t rule rest cs res ds c hcg]
        by_cases hcond : ((rule.minCount > c
            || (match rule.maxCount with | some m => decide (m < c) | none => false) : Bool)
              = true)
        · rw [if_pos hcond]
          exact expectedLoop_res_false _ _ _
        · rw [if_neg hcond]
          exact ih _ _ _ ⟨e2, hm2, he2⟩

/-- Claim C8: a box counts toward the tally of its type tag only when its
type-specific shape check passed (tallyBoxes counts exactly those boxes,
and boxesLoop_counters proves the loop's counters agree with it); when
every box carries a level-2 title, a known type and a passing shape check,
and the tally of every declared type equals its min with min equal to max,
the box check passes with no diagnostics (first conjunct); and whenever
the box check returns without raising and some declared type's tally lies
below its min or above its max, the box check fails (second conjunct; a
tally of zero for a min of zero produces no error, as the first conjunct
already shows at min = 0). -/
theorem C8_box_tallies :
    (∀ (spec : TemplateSpec) (boxes : List Node),
      (∀ b ∈ boxes, wellShapedBox b = true) →
      (∀ e ∈ spec.boxes, e.2.maxCount = some e.2.minCount
        ∧ tallyBoxes e.1 boxes = e.2.minCount) →
      validate_boxes spec boxes = .ok (true, []))
    ∧ (∀ (spec : TemplateSpec) (boxes : List Node) (r : Bool × List Diag),
      validate_boxes spec boxes = .ok r →
      (∃ e ∈ spec.boxes, tallyBoxes e.1 boxes < e.2.minCount
        ∨ ∃ m, e.2.maxCount = some m ∧ m < tallyBoxes e.1 boxes) →
      r.1 = false) := by
  constructor
  · intro spec boxes hws hexp
    obtain ⟨cs', hloop⟩ := boxesLoop_wellshaped boxes true [] [] hws
    have hcnt := boxesLoop_counters boxes true [] [] (true, [], cs') hloop
    rw [validate_boxes, hloop]
    show Except.ok (expectedBoxesLoop spec.boxes cs' true []) = Except.ok (true, [])
    rw [expectedLoop_clean spec.boxes cs' true []]
    intro e he
    obtain ⟨hmx, htl⟩ := hexp e he
    have hc := hcnt e.1
    simp only [countersGet_nil] at hc
    by_cases hany : boxes.any (fun b => decide (get_box_type b = some e.1)) = true
    · simp only [hany, if_true] at hc
      rw [hc]
      constructor
      · omega
      · intro m hm
        rw [hmx] at hm
        have hm2 := Option.some.inj hm
        omega
    · have hany2 : boxes.any (fun b => decide (get_box_type b = some e.1)) = false := by
        rcases Bool.eq_false_or_eq_true
          (boxes.any (fun b => decide (get_box_type b = some e.1))) with h4 | h4
        · exact absurd h4 hany
        · exact h4
      simp only [hany2, Bool.false_eq_true, if_false] at hc
      rw [hc]
      have hz := tallyBoxes_zero_of_not_any e.1 boxes hany2
      omega
  · intro spec boxes r hok hbad
    cases hloop : boxesLoop boxes true [] [] with
    | error ds =>
      rw [validate_boxes, hloop] at hok
      exact absurd hok (by simp)
    | ok trip =>
      obtain ⟨res0, rest0⟩ := trip
      obtain ⟨ds0, cs0⟩ := rest0
      rw [validate_boxes, hloop] at hok
      have hok2 : Except.ok (expectedBoxesLoop spec.boxes cs0 res0 ds0)
          = (Except.ok r : Except (List Diag) (Bool × List Diag)) := hok
      have hok3 := Except.ok.inj hok2
      rw [← hok3]
      apply expectedLoop_bad
      obtain ⟨e, hem, hbe⟩ := hbad
      refine ⟨e, hem, ?_⟩
      have hc := boxesLoop_counters boxes true [] [] (res0, ds0, cs0) hloop e.1
      simp only [countersGet_nil] at hc
      by_cases hany : boxes.any (fun b => decide (get_box_type b = some e.1)) = true
      · simp only [hany, if_true] at hc
        rw [hc]
        exact hbe
      · have hany2 : boxes.any (fun b => decide (get_box_type b = some e.1)) = false := by
          rcases Bool.eq_false_or_eq_true
            (boxes.any (fun b => decide (get_box_type b = some e.1))) with h4 | h4
          · exact absurd h4 hany
          · exact h4
        simp only [hany2, Bool.false_eq_true, if_false] at hc
        rw [hc]
        have hz := tallyBoxes_zero_of_not_any e.1 boxes hany2
        rcases hbe with hlt | ⟨m, hm, hmc⟩
        · omega
        · omega

theorem C8_witness :
    validate_boxes IndexPageTemplate
      [Node.BlockQuote [Node.Header 2 "Prerequisites" ["prereq"], Node.Para "What to know."]]
      = .ok (true, []) :=
  C8_box_tallies.1 IndexPageTemplate
    [Node.BlockQuote [Node.Header 2 "Prerequisites" ["prereq"], Node.Para "What to know."]]
    (by decide) (by decide)
